import Mathlib

/-!
# Verification of the thyroid-guideline RAG pipeline

Shallow embedding of the retrieval-augmented explanation pipeline of the
`website_for_thyroid_classification` backend: the response parser
(`rag/llm_response.py`), the retriever (`rag/retriever.py`), the vector-store
probes (`rag/vectorstore.py`) and the token chunker / ingestion loop
(`management/commands/ingest_guides.py`).  Python strings are modelled as
Lean `String` (code-point indexed, like Python), machine integers as `Nat`,
float distances as `ℚ`, and raising code as `Except`/`Option`.
-/

namespace Thyroid

/-! ## Python string primitives

Helpers mirroring the Python `str` operations the pipeline uses:
`strip` (ASCII whitespace), `find`, the `in` containment test and `lower`.
-/

/-- ASCII whitespace recognised by Python `str.strip()`. -/
def pyIsSpace (c : Char) : Bool :=
  c = ' ' || c = '\t' || c = '\n' || c = '\r' || c = '\x0b' || c = '\x0c'

/-- Strip whitespace from both ends of a character list. -/
def pyStripL (l : List Char) : List Char :=
  ((l.dropWhile pyIsSpace).reverse.dropWhile pyIsSpace).reverse

/-- Python `s.strip()`. -/
def pyStrip (s : String) : String :=
  String.mk (pyStripL s.data)

/-- Does `s` start with `p` (on character lists)? -/
def startsL : List Char → List Char → Bool
  | [], _ => true
  | _ :: _, [] => false
  | a :: ps, b :: ss => a = b && startsL ps ss

/-- Python `s.find(p)` on character lists: index of the first occurrence. -/
def findL (p : List Char) : List Char → Option Nat
  | [] => if startsL p [] then some 0 else none
  | c :: rest =>
    if startsL p (c :: rest) then some 0
    else (findL p rest).map (· + 1)

/-- Python `p in s` (substring containment). -/
def pyContains (s p : String) : Bool :=
  (findL p.data s.data).isSome

/-- Python `s.lower()` (ASCII case folding suffices for the alias sets used). -/
def pyLower (s : String) : String :=
  String.mk (s.data.map Char.toLower)

/-! ## Response parser (`parse_guideline_sections`, llm_response.py lines 258-341) -/

/-- The three guideline sections of an answer (`tr` / `us` / `eu` keys). -/
structure Sections where
  tr : String
  us : String
  eu : String
deriving DecidableEq, Repr

/-- Section keys, in dictionary insertion order tr, us, eu. -/
inductive SKey | tr | us | eu
deriving DecidableEq, Repr

/-- Source list `tr_markers`. -/
def tr_markers : List String :=
  ["### TR Kılavuzuna Göre:", "### TR Kılavuzu:", "**TR Kılavuzuna Göre:**"]

/-- Source list `us_markers`. -/
def us_markers : List String :=
  ["### US (ACR TI-RADS) Kılavuzuna Göre:", "### US (ACR) Kılavuzu:",
   "### ACR TI-RADS", "**US (ACR TI-RADS) Kılavuzuna Göre:**"]

/-- Source list `eu_markers`. -/
def eu_markers : List String :=
  ["### EU-TIRADS Kılavuzuna Göre:", "### EU-TIRADS:", "### EU Kılavuzu:",
   "**EU-TIRADS Kılavuzuna Göre:**"]

/-- All recognised markers. -/
def allMarkers : List String := tr_markers ++ us_markers ++ eu_markers

/-- The per-section marker loop: first marker found in the text wins and the
section start is the offset just after it (`idx + len(marker)`). -/
def findMarker (markers : List String) (text : List Char) : Option Nat :=
  match markers with
  | [] => none
  | m :: rest =>
    match findL m.data text with
    | some idx => some (idx + m.length)
    | none => findMarker rest text

/-- The `positions` list before sorting: matched sections in tr, us, eu order. -/
def positionsRaw (text : List Char) : List (SKey × Nat) :=
  (match findMarker tr_markers text with
   | some s => [(SKey.tr, s)] | none => []) ++
  (match findMarker us_markers text with
   | some s => [(SKey.us, s)] | none => []) ++
  (match findMarker eu_markers text with
   | some s => [(SKey.eu, s)] | none => [])

/-- Stable insertion used to model Python's stable `list.sort(key=...)`:
a later element is placed after all accumulated elements with key ≤ its key. -/
def insertPos (x : SKey × Nat) : List (SKey × Nat) → List (SKey × Nat)
  | [] => [x]
  | y :: ys => if y.2 ≤ x.2 then y :: insertPos x ys else x :: y :: ys

/-- Model of `positions.sort(key=lambda x: x[1])` — stable ascending sort by position. -/
def sortPos (l : List (SKey × Nat)) : List (SKey × Nat) :=
  l.foldl (fun acc x => insertPos x acc) []

/-- One step of the backward scan for a heading start (`###` or `**`). -/
def scanBackAux (text : List Char) (j : Nat) : Nat → Option Nat
  | 0 => none
  | fuel + 1 =>
    if (text.drop j).take 3 = ['#', '#', '#'] || (text.drop j).take 2 = ['*', '*'] then
      some j
    else scanBackAux text (j - 1) fuel

/-- The backward scan `for j in range(next_start - 1, max(start, next_start - 100), -1)`
looking for the beginning of the next heading. -/
def scanBack (text : List Char) (start next_start : Nat) : Option Nat :=
  let lo := max start (next_start - 100)
  scanBackAux text (next_start - 1) (next_start - 1 - lo)

/-- Model of `result[key] = value`. -/
def assignKey (r : Sections) (k : SKey) (v : String) : Sections :=
  match k with
  | SKey.tr => { r with tr := v }
  | SKey.us => { r with us := v }
  | SKey.eu => { r with eu := v }

/-- The extraction loop over the sorted positions: every section but the last
ends where the next one starts, adjusted backward to the next heading start;
the last runs to the end of the text.  Each extract is stripped. -/
def extractLoop (text : List Char) (r : Sections) : List (SKey × Nat) → Sections
  | [] => r
  | [(k, s)] => assignKey r k (pyStrip (String.mk (text.drop s)))
  | (k, s) :: (k2, s2) :: rest =>
    let e := match scanBack text s s2 with
      | some j => j
      | none => s2
    extractLoop text
      (assignKey r k (pyStrip (String.mk ((text.drop s).take (e - s)))))
      ((k2, s2) :: rest)

/-- Fallback step: when no extracted value is non-empty, assign the
full, untrimmed text to all three sections when nothing was extracted. -/
def applyFallback (full_text : String) (r : Sections) : Sections :=
  if r.tr = "" ∧ r.us = "" ∧ r.eu = "" then ⟨full_text, full_text, full_text⟩
  else r

/-- Model of `parse_guideline_sections(full_text)`: position-based splitting with
the full-text fallback when nothing (non-empty) was extracted. -/
def parse_guideline_sections (full_text : String) : Sections :=
  applyFallback full_text
    (extractLoop full_text.data ⟨"", "", ""⟩ (sortPos (positionsRaw full_text.data)))

/-! ## Retriever (`retrieve_chunks`, retriever.py lines 10-83) -/

/-- One ranked match coming back from the vector store: a row of the parallel
`documents` / `metadatas` / `distances` arrays.  Distances are cosine
distances, modelled in `ℚ`. -/
structure Candidate where
  doc_id : String
  page : Nat
  chunk_id : String
  content : String
  distance : ℚ
deriving DecidableEq, Repr

/-- A retrieved chunk as assembled by `retrieve_chunks` (the dictionary with
`doc_id`, `page`, `chunk_id`, `content`, `relevance_score`, `excerpt`). -/
structure RetrievedChunk where
  doc_id : String
  page : Nat
  chunk_id : String
  content : String
  relevance_score : ℚ
  excerpt : String
deriving DecidableEq, Repr

/-- Python `round` ties-to-even on the scaled value. -/
def roundHalfEven (q : ℚ) : ℤ :=
  if q - (⌊q⌋ : ℚ) < 1/2 then ⌊q⌋
  else if 1/2 < q - (⌊q⌋ : ℚ) then ⌊q⌋ + 1
  else if Even ⌊q⌋ then ⌊q⌋ else ⌊q⌋ + 1

/-- Model of `round(x, 3)`. -/
def round3 (q : ℚ) : ℚ :=
  (roundHalfEven (q * 1000) : ℚ) / 1000

/-- Excerpt rule: the first 200 characters with an ellipsis when truncated. -/
def excerptOf (doc : String) : String :=
  if 200 < doc.length then doc.take 200 ++ "..." else doc

/-- The chunk record built for a candidate that passed the relevance filter. -/
def toRetrieved (c : Candidate) : RetrievedChunk :=
  { doc_id := c.doc_id
    page := c.page
    chunk_id := c.chunk_id
    content := c.content
    relevance_score := round3 (1 - c.distance)
    excerpt := excerptOf c.content }

/-- Model of `VectorStore.query(query_text, n_results)`: the store holds its records
ranked by ascending cosine distance; a query returns the first `n` rows. -/
def vs_query (store : List Candidate) (n : Nat) : List Candidate :=
  store.take n

/-- Model of `retrieve_chunks(query, ..., top_k, relevance_threshold)`: empty without an
API key; otherwise query the store for `top_k` candidates and keep those with
`relevance = 1 - distance` at or above the threshold (default `0.5`). -/
def retrieve_chunks (apiKey : Bool) (store : List Candidate) (top_k : Nat)
    (relevance_threshold : ℚ) : List RetrievedChunk :=
  if !apiKey then []
  else ((vs_query store top_k).filter
      (fun c => relevance_threshold ≤ 1 - c.distance)).map toRetrieved

/-- The default `relevance_threshold` of `retrieve_chunks`. -/
def default_threshold : ℚ := 1/2

/-! ## Guideline-partition retrieval (`retrieve_guideline_chunks`,
llm_response.py lines 28-68) -/

/-- Turkey partition test on a document identifier. -/
def turkeyTest (docId : String) : Bool :=
  pyContains (pyLower docId) "turkey"

/-- ACR partition test on a document identifier. -/
def acrTest (docId : String) : Bool :=
  pyContains (pyLower docId) "acr" || pyContains (pyLower docId) "america"

/-- EU partition test on a document identifier. -/
def euTest (docId : String) : Bool :=
  pyContains (pyLower docId) "eu" || pyContains (pyLower docId) "europe"

/-- The `if/elif` filter chain of `retrieve_guideline_chunks`: unrecognised
filters fall through to the unfiltered list. -/
def partitionFilterStep (gf : String) (chunks : List RetrievedChunk) :
    List RetrievedChunk :=
  if gf = "turkey" then chunks.filter (fun c => turkeyTest c.doc_id)
  else if gf = "acr" ∨ gf = "american" then chunks.filter (fun c => acrTest c.doc_id)
  else if gf = "eu" ∨ gf = "european" then chunks.filter (fun c => euTest c.doc_id)
  else chunks

/-- Model of `retrieve_guideline_chunks(query, ..., guideline_filter, top_k)`:
one `retrieve_chunks` call asking for `top_k * 2` candidates (at default
threshold), then the substring filter by guideline, then `[:top_k]`. -/
def retrieve_guideline_chunks (apiKey : Bool) (store : List Candidate)
    (guideline_filter : String) (top_k : Nat) : List RetrievedChunk :=
  (partitionFilterStep guideline_filter
    (retrieve_chunks apiKey store (top_k * 2) default_threshold)).take top_k

/-- The document-identifier test the code associates with each recognised
guideline filter; `none` for unrecognised filters. -/
def docTestOf (gf : String) : Option (String → Bool) :=
  if gf = "turkey" then some turkeyTest
  else if gf = "acr" ∨ gf = "american" then some acrTest
  else if gf = "eu" ∨ gf = "european" then some euTest
  else none

/-- Following the spec's words (§4.4 partitioning policy): the partition's
best available above-threshold evidence — filter the whole ranked corpus to
the partition, keep the above-threshold candidates, cap at `top_k`.  This is
the comparison point for the independence claim, not a source translation. -/
def spec_partition_retrieve (store : List Candidate) (docTest : String → Bool)
    (top_k : Nat) : List RetrievedChunk :=
  ((((store.filter (fun c => docTest c.doc_id)).filter
      (fun c => default_threshold ≤ 1 - c.distance)).map toRetrieved).take top_k)

/-! ## Vector store probes (`is_ready` / `count`, vectorstore.py lines 104-114) -/

/-- The backend collection as seen through its `count()` call: either a
document count or a raised backend exception. -/
structure BackendCollection where
  countResult : Except String Nat
deriving Repr

/-- Model of `VectorStore.is_ready`: the count test, with every backend exception
caught and turned into `False`. -/
def VectorStore.is_ready (b : BackendCollection) : Bool :=
  match b.countResult with
  | Except.ok n => decide (0 < n)
  | Except.error _ => false

/-- Model of `VectorStore.count`: returns the backend count with no
exception handling — a raising backend propagates. -/
def VectorStore.count (b : BackendCollection) : Except String Nat :=
  b.countResult

/-! ## Token chunker (`Command._chunk_text`, ingest_guides.py lines 179-209) -/

/-- The chunking `while` loop at the token level, producing the
`(start, end)` windows it visits.  `fuel` counts remaining permitted
iterations; `none` models non-termination (the Python loop runs forever
when the fuel bound, one iteration per token plus one, is exceeded). -/
def chunkWindows (n cs ov : Nat) : Nat → Nat → Option (List (Nat × Nat))
  | 0, _ => none
  | fuel + 1, start =>
    if start < n then
      let e := min (start + cs) n
      let s2 := e - ov
      if n - ov ≤ s2 then some [(start, e)]
      else
        match chunkWindows n cs ov fuel s2 with
        | none => none
        | some ws => some ((start, e) :: ws)
    else some []

/-- Model of `_chunk_text(text, tokenizer, chunk_size, chunk_overlap)` over an abstract
tokenizer `enc` / `dec` (tiktoken is external to the repository): a text of at
most `chunk_size` tokens is returned whole; otherwise each visited window is
decoded, stripped, and kept when non-empty. -/
def chunk_text (enc : String → List Nat) (dec : List Nat → String)
    (text : String) (cs ov : Nat) : Option (List String) :=
  if (enc text).length ≤ cs then some [text]
  else
    match chunkWindows (enc text).length cs ov ((enc text).length + 1) 0 with
    | none => none
    | some ws => some (ws.filterMap (fun w =>
        if pyStrip (dec (((enc text).drop w.1).take (w.2 - w.1))) = "" then none
        else some (pyStrip (dec (((enc text).drop w.1).take (w.2 - w.1))))))

/-! ## Ingestion naming (`Command._process_pdf_page_by_page`,
ingest_guides.py lines 104-165) -/

/-- Decimal digit character. -/
def digitCh (d : Nat) : Char := Char.ofNat (48 + d)

/-- Numeric value of a decimal digit character. -/
def charVal (c : Char) : Nat := c.toNat - 48

/-- Decimal rendering of a natural number, as Python `str(n)`. -/
def natChars (n : Nat) : List Char :=
  if n = 0 then ['0'] else ((Nat.digits 10 n).map digitCh).reverse

/-- Python `f"{n:02d}"` for a natural number: zero-padded to width 2. -/
def pad2 (n : Nat) : List Char :=
  if n < 10 then '0' :: natChars n else natChars n

/-- Extension removal applied to the document identifier. -/
def stripExt (s : String) : String := s.replace ".pdf" ""

/-- Chunk identifier formula of the ingestion loop
(`page_num` is the 0-based page index). -/
def chunkId (docId : String) (pageNum chunkIdx : Nat) : String :=
  stripExt docId ++ "_" ++ String.mk (natChars (pageNum + 1)) ++ "_" ++
    String.mk (pad2 chunkIdx)

/-- The metadata dictionary stored with each chunk. -/
structure ChunkMeta where
  doc_id : String
  page : Nat
  chunk_id : String
deriving DecidableEq, Repr

/-- The `documents` list the page loop passes to `add_documents`. -/
def pageDocuments (pageChunks : List String) : List String :=
  pageChunks.enum.map (fun e => e.2)

/-- The `metadatas` list the page loop passes to `add_documents`. -/
def pageMetadatas (docId : String) (pageNum : Nat) (pageChunks : List String) :
    List ChunkMeta :=
  pageChunks.enum.map (fun e =>
    { doc_id := docId, page := pageNum + 1, chunk_id := chunkId docId pageNum e.1 })

/-- The `ids` list the page loop passes to `add_documents`. -/
def pageIds (docId : String) (pageNum : Nat) (pageChunks : List String) :
    List String :=
  pageChunks.enum.map (fun e => chunkId docId pageNum e.1)

/-! ## Response generation (`generate_llm_response`, llm_response.py
lines 71-255) -/

/-- One source citation of the response (`doc_id`, `page`, `chunk_id`,
`excerpt`). -/
structure SourceRef where
  doc_id : String
  page : Nat
  chunk_id : String
  excerpt : String
deriving DecidableEq, Repr

/-- The value `generate_llm_response` returns. -/
structure LlmResponse where
  llm_explanation : Sections
  sources : List SourceRef
deriving DecidableEq, Repr

/-- The message placed in all three sections when no API key is configured. -/
def apiKeyMissingMsg : String := "OpenAI API anahtarı yapılandırılmamış."

/-- Error message placed in all three sections on a chat failure. -/
def errMessage (e : String) : String :=
  "LLM yanıtı oluşturulurken hata: " ++ e

/-- The citation record built from a retrieved chunk. -/
def toSourceRef (c : RetrievedChunk) : SourceRef :=
  { doc_id := c.doc_id, page := c.page, chunk_id := c.chunk_id, excerpt := c.excerpt }

/-- Model of `generate_llm_response` with the already-retrieved per-guideline chunks and
the chat-completion call abstracted as an `Except` outcome (the `try` block's
only raising operation in the embedding): a missing key or a raised chat error
yields the fixed three-section message shape with no sources; a successful
completion is parsed into sections with the concatenated citations. -/
def generate_llm_response (apiKey : Bool)
    (tr_chunks us_chunks eu_chunks : List RetrievedChunk)
    (chat : Except String String) : LlmResponse :=
  if !apiKey then
    ⟨⟨apiKeyMissingMsg, apiKeyMissingMsg, apiKeyMissingMsg⟩, []⟩
  else
    match chat with
    | Except.ok full_explanation =>
      ⟨parse_guideline_sections full_explanation,
       (tr_chunks ++ us_chunks ++ eu_chunks).map toSourceRef⟩
    | Except.error e =>
      ⟨⟨errMessage e, errMessage e, errMessage e⟩, []⟩

/-! ## Concrete corpora used by witnesses and counterexamples -/

/-- Numeric value of a rendered decimal string (most significant first). -/
def decVal (l : List Char) : Nat :=
  Nat.ofDigits 10 (l.reverse.map charVal)

/-- A two-chunk ranked corpus realising the spec's threshold example:
distances `0.3` (relevance `0.7`, included) and `0.6` (relevance `0.4`,
excluded). -/
def rankedStore : List Candidate :=
  [⟨"turkey.pdf", 1, "turkey_1_00", "c1", 3/10⟩,
   ⟨"turkey.pdf", 1, "turkey_1_01", "c2", 6/10⟩]

/-- A corpus whose two top-ranked chunks (cosine distance `0.1`) belong to the
ACR document while the Turkish document's above-threshold chunk (distance
`0.2`, relevance `0.8`) ranks just below them. -/
def imbalancedStore : List Candidate :=
  [⟨"acr.pdf", 1, "acr_1_00", "a0", 1/10⟩,
   ⟨"acr.pdf", 1, "acr_1_01", "a1", 1/10⟩,
   ⟨"turkey.pdf", 1, "turkey_1_00", "t0", 2/10⟩]

/-! ## Helper lemmas -/

/-- If no marker of the list occurs in the text, the marker loop finds none. -/
theorem findMarker_eq_none (ms : List String) (text : List Char)
    (h : ∀ m ∈ ms, findL m.data text = none) : findMarker ms text = none := by
  induction ms with
  | nil => rfl
  | cons m rest ih =>
    have hm := h m (List.mem_cons_self m rest)
    simp only [findMarker, hm]
    exact ih (fun x hx => h x (List.mem_cons_of_mem m hx))

/-- The last element of a cons is the last element of its (non-empty) tail. -/
theorem getLast?_cons_of_some {α : Type} (w : α) (ws : List α) (l : α)
    (h : ws.getLast? = some l) : (w :: ws).getLast? = some l := by
  cases ws with
  | nil => simp at h
  | cons b bs => rw [List.getLast?_cons_cons]; exact h

/-- The chunking loop terminates within `n - start + 1` iterations whenever
`overlap < chunk_size`, and when it runs at all its last emitted window
reaches the end of the token sequence. -/
theorem chunkWindows_total (n cs ov : Nat) (hov : ov < cs) :
    ∀ fuel start, n - start < fuel →
      ∃ ws, chunkWindows n cs ov fuel start = some ws ∧
        (start < n → ∃ l, ws.getLast? = some l ∧ l.2 = n ∧
          l.2 = min (l.1 + cs) n) := by
  intro fuel
  induction fuel with
  | zero => intro start h; omega
  | succ fuel ih =>
    intro start h
    by_cases h1 : start < n
    · by_cases h2 : n - ov ≤ min (start + cs) n - ov
      · refine ⟨[(start, min (start + cs) n)], ?_, ?_⟩
        · unfold chunkWindows
          simp only [h1, if_pos, if_true]
          rw [if_pos h2]
        · intro _
          refine ⟨(start, min (start + cs) n), rfl, by omega, by omega⟩
      · have hs2lt : min (start + cs) n - ov < n - ov := by omega
        have hrec : n - (min (start + cs) n - ov) < fuel := by omega
        obtain ⟨ws, hws, hlast⟩ := ih (min (start + cs) n - ov) hrec
        have hs2n : min (start + cs) n - ov < n := by omega
        obtain ⟨l, hl, hln, hlm⟩ := hlast hs2n
        refine ⟨(start, min (start + cs) n) :: ws, ?_, ?_⟩
        · unfold chunkWindows
          simp only [h1, if_pos, if_true]
          rw [if_neg h2, hws]
        · intro _
          exact ⟨l, getLast?_cons_of_some _ _ _ hl, hln, hlm⟩
    · refine ⟨[], ?_, ?_⟩
      · unfold chunkWindows
        rw [if_neg h1]
      · intro hc; omega

/-! ## C1 — parser output non-emptiness -/

/-- C1 counterexample: on the non-empty input `"### TR Kılavuzu: x"` (a
recognised TR marker followed by content) the parser returns an empty string
for the `us` and `eu` sections, so the claim that all three values are
non-empty for every non-empty input is false. -/
theorem parse_nonempty_cex :
    ("### TR Kılavuzu: x" : String) ≠ "" ∧
      parse_guideline_sections "### TR Kılavuzu: x" =
        ⟨"x", "", ""⟩ := by
  constructor
  · decide
  · decide

/-- C1 (amended): for every non-empty input, `parse_guideline_sections` never
raises (it is total) and at least one of the three section values is
non-empty; sections whose markers are matched by none of the found markers may
be empty when some other marker did match. -/
theorem parse_some_section_nonempty (s : String) (h : s ≠ "") :
    (parse_guideline_sections s).tr ≠ "" ∨
      (parse_guideline_sections s).us ≠ "" ∨
      (parse_guideline_sections s).eu ≠ "" := by
  unfold parse_guideline_sections applyFallback
  split
  · exact Or.inl h
  · next hc => tauto

/-- C1 amended witness at the concrete input `"abc"`. -/
theorem parse_some_section_nonempty_witness :
    ("abc" : String) ≠ "" ∧
      ((parse_guideline_sections "abc").tr ≠ "" ∨
        (parse_guideline_sections "abc").us ≠ "" ∨
        (parse_guideline_sections "abc").eu ≠ "") :=
  ⟨by decide, parse_some_section_nonempty "abc" (by decide)⟩

/-! ## C8 — full-text fallback when no marker occurs -/

/-- C8: when none of the recognised markers occurs in the input, all three
sections equal the full, untrimmed input text. -/
theorem parse_fallback_full_text (s : String)
    (h : ∀ m ∈ allMarkers, pyContains s m = false) :
    parse_guideline_sections s = ⟨s, s, s⟩ := by
  have hnone : ∀ m ∈ allMarkers, findL m.data s.data = none := by
    intro m hm
    have := h m hm
    unfold pyContains at this
    cases hfind : findL m.data s.data with
    | none => rfl
    | some v => rw [hfind] at this; simp at this
  have htr : findMarker tr_markers s.data = none :=
    findMarker_eq_none _ _ (fun m hm =>
      hnone m (List.mem_append.mpr (Or.inl (List.mem_append.mpr (Or.inl hm)))))
  have hus : findMarker us_markers s.data = none :=
    findMarker_eq_none _ _ (fun m hm =>
      hnone m (List.mem_append.mpr (Or.inl (List.mem_append.mpr (Or.inr hm)))))
  have heu : findMarker eu_markers s.data = none :=
    findMarker_eq_none _ _ (fun m hm =>
      hnone m (List.mem_append.mpr (Or.inr hm)))
  unfold parse_guideline_sections positionsRaw
  rw [htr, hus, heu]
  simp [sortPos, extractLoop, applyFallback]

/-- C8 witness: the marker-free input `"hello"` maps to three copies of
itself. -/
theorem parse_fallback_full_text_witness :
    (∀ m ∈ allMarkers, pyContains "hello" m = false) ∧
      parse_guideline_sections "hello" = ⟨"hello", "hello", "hello"⟩ :=
  ⟨by decide, parse_fallback_full_text "hello" (by decide)⟩

/-! ## C4 — chunking terminates and emits the final partial window -/

/-- C4: for every tokenizer, text, `chunk_size ≥ 1` and `0 ≤ overlap <
chunk_size`, the chunking loop terminates (fuel `total_tokens + 1` suffices,
so `chunk_text` returns a value), and when the loop runs (more tokens than
`chunk_size`) its last visited window still reaches the end of the token
sequence — the final partial window is emitted before the stop condition
`next start ≥ total_tokens − overlap` fires. -/
theorem chunk_text_terminates (enc : String → List Nat)
    (dec : List Nat → String) (text : String) (cs ov : Nat)
    (hcs : 1 ≤ cs) (hov : ov < cs) :
    (∃ res, chunk_text enc dec text cs ov = some res) ∧
      (cs < (enc text).length →
        ∃ ws l, chunkWindows (enc text).length cs ov ((enc text).length + 1) 0 =
            some ws ∧
          ws.getLast? = some l ∧ l.2 = (enc text).length ∧
          (enc text).length - ov ≤ min (l.1 + cs) (enc text).length - ov) := by
  obtain ⟨ws, hws, hlast⟩ :=
    chunkWindows_total (enc text).length cs ov hov ((enc text).length + 1) 0
      (by omega)
  constructor
  · unfold chunk_text
    by_cases hle : (enc text).length ≤ cs
    · exact ⟨[text], by rw [if_pos hle]⟩
    · rw [if_neg hle, hws]
      exact ⟨_, rfl⟩
  · intro hlt
    obtain ⟨l, hl, hln, hlm⟩ := hlast (by omega)
    exact ⟨ws, l, hws, hl, hln, by omega⟩

/-- C4 witness at a concrete tokenizer (one token per character), text
`"abcd"`, `chunk_size = 2`, `overlap = 1`. -/
theorem chunk_text_terminates_witness :
    (1 ≤ 2 ∧ 1 < 2) ∧
      ((∃ res, chunk_text (fun s => s.data.map Char.toNat)
          (fun l => String.mk (l.map Char.ofNat)) "abcd" 2 1 = some res) ∧
        (2 < ((fun (s : String) => s.data.map Char.toNat) "abcd").length →
          ∃ ws l, chunkWindows
              ((fun (s : String) => s.data.map Char.toNat) "abcd").length 2 1
              (((fun (s : String) => s.data.map Char.toNat) "abcd").length + 1)
              0 = some ws ∧
            ws.getLast? = some l ∧
            l.2 = ((fun (s : String) => s.data.map Char.toNat) "abcd").length ∧
            ((fun (s : String) => s.data.map Char.toNat) "abcd").length - 1 ≤
              min (l.1 + 2)
                ((fun (s : String) => s.data.map Char.toNat) "abcd").length - 1)) :=
  ⟨by decide,
   chunk_text_terminates (fun s => s.data.map Char.toNat)
     (fun l => String.mk (l.map Char.ofNat)) "abcd" 2 1 (by decide) (by decide)⟩

/-! ## C5 — the 1000-token, 800/120 scenario -/

/-- C5: a text of exactly 1000 tokens chunked with `chunk_size = 800` and
`overlap = 120` terminates with exactly two chunks, decoded (and stripped)
from the token windows `[0, 800)` and `[680, 1000)`; the windows are assumed
to decode to non-blank text, as the code drops a window whose decoded text
strips to empty. -/
theorem chunk_text_two_chunks (enc : String → List Nat)
    (dec : List Nat → String) (text : String)
    (h : (enc text).length = 1000)
    (h1 : pyStrip (dec ((enc text).take 800)) ≠ "")
    (h2 : pyStrip (dec (((enc text).drop 680).take 320)) ≠ "") :
    chunk_text enc dec text 800 120 =
      some [pyStrip (dec ((enc text).take 800)),
            pyStrip (dec (((enc text).drop 680).take 320))] := by
  unfold chunk_text
  rw [h]
  rw [if_neg (by omega)]
  rw [show chunkWindows 1000 800 120 (1000 + 1) 0 =
    some [(0, 800), (680, 1000)] from by decide]
  simp only [List.filterMap_cons, List.filterMap_nil]
  rw [List.drop_zero]
  norm_num
  rw [if_neg h1, if_neg h2]

/-- C5 witness at a concrete 1000-token tokenizer. -/
theorem chunk_text_two_chunks_witness :
    (((fun (_ : String) => List.range 1000) "t").length = 1000 ∧
      pyStrip ((fun (_ : List Nat) => "x")
        (((fun (_ : String) => List.range 1000) "t").take 800)) ≠ "" ∧
      pyStrip ((fun (_ : List Nat) => "x")
        ((((fun (_ : String) => List.range 1000) "t").drop 680).take 320)) ≠ "") ∧
      chunk_text (fun _ => List.range 1000) (fun _ => "x") "t" 800 120 =
        some [pyStrip ((fun (_ : List Nat) => "x")
            (((fun (_ : String) => List.range 1000) "t").take 800)),
          pyStrip ((fun (_ : List Nat) => "x")
            ((((fun (_ : String) => List.range 1000) "t").drop 680).take 320))] :=
  ⟨⟨by simp, by decide, by decide⟩,
   chunk_text_two_chunks (fun _ => List.range 1000) (fun _ => "x") "t"
     (by simp) (by decide) (by decide)⟩

/-! ## C9 — degraded three-section answer on chat failure -/

/-- C9: whenever the chat-generation call raises, `generate_llm_response`
returns (rather than raising) the well-formed three-section shape carrying one
identical error message in `tr`, `us` and `eu`, with an empty sources list. -/
theorem generate_llm_response_error_shape
    (tr_chunks us_chunks eu_chunks : List RetrievedChunk) (e : String) :
    generate_llm_response true tr_chunks us_chunks eu_chunks (Except.error e) =
      ⟨⟨errMessage e, errMessage e, errMessage e⟩, []⟩ := rfl

/-! ## C7 / C10 helper lemmas — decimal renderings invert -/

/-- A decimal digit character decodes to its digit. -/
theorem charVal_digitCh (d : Nat) (hd : d < 10) : charVal (digitCh d) = d := by
  interval_cases d <;> decide

/-- A decimal digit character is not an underscore. -/
theorem digitCh_ne_us (d : Nat) (hd : d < 10) : digitCh d ≠ '_' := by
  interval_cases d <;> decide

/-- Decoding inverts `natChars`. -/
theorem decVal_natChars (n : Nat) : decVal (natChars n) = n := by
  unfold natChars
  by_cases h : n = 0
  · subst h; decide
  · rw [if_neg h]
    unfold decVal
    rw [List.reverse_reverse, List.map_map]
    have : ∀ d ∈ Nat.digits 10 n, (charVal ∘ digitCh) d = d := by
      intro d hd
      exact charVal_digitCh d (Nat.digits_lt_base (by norm_num) hd)
    rw [List.map_congr_left this]
    simp only [List.map_id']
    exact Nat.ofDigits_digits 10 n

/-- Decoding inverts `pad2`. -/
theorem decVal_pad2 (n : Nat) : decVal (pad2 n) = n := by
  unfold pad2
  by_cases h : n < 10
  · rw [if_pos h]
    have hn := decVal_natChars n
    unfold decVal at hn
    unfold decVal
    rw [List.reverse_cons, List.map_append]
    rw [show List.map charVal [('0' : Char)] = [0] from by decide]
    rw [Nat.ofDigits_append, Nat.ofDigits_singleton]
    rw [mul_zero, add_zero]
    exact hn
  · rw [if_neg h]
    exact decVal_natChars n

/-- Decimal renderings are injective. -/
theorem natChars_inj {a b : Nat} (h : natChars a = natChars b) : a = b := by
  rw [← decVal_natChars a, ← decVal_natChars b, h]

/-- Zero-padded renderings are injective. -/
theorem pad2_inj {a b : Nat} (h : pad2 a = pad2 b) : a = b := by
  rw [← decVal_pad2 a, ← decVal_pad2 b, h]

/-- A rendered decimal string contains no underscore. -/
theorem natChars_no_us (n : Nat) : '_' ∉ natChars n := by
  unfold natChars
  by_cases h : n = 0
  · subst h; decide
  · rw [if_neg h]
    intro hmem
    rw [List.mem_reverse, List.mem_map] at hmem
    obtain ⟨d, hd, he⟩ := hmem
    exact digitCh_ne_us d (Nat.digits_lt_base (by norm_num) hd) he

/-- A zero-padded rendering contains no underscore. -/
theorem pad2_no_us (n : Nat) : '_' ∉ pad2 n := by
  unfold pad2
  by_cases h : n < 10
  · rw [if_pos h]
    intro hmem
    rcases List.mem_cons.mp hmem with h0 | h1
    · exact absurd h0.symm (by decide)
    · exact natChars_no_us n h1
  · rw [if_neg h]
    exact natChars_no_us n

/-- Splitting at an underscore separator is unambiguous when neither left part
contains an underscore. -/
theorem append_sep_inj (A : List Char) :
    ∀ A2 B B2 : List Char, '_' ∉ A → '_' ∉ A2 →
      A ++ '_' :: B = A2 ++ '_' :: B2 → A = A2 ∧ B = B2 := by
  induction A with
  | nil =>
    intro A2 B B2 _ hA2 h
    cases A2 with
    | nil => simpa using h
    | cons c t =>
      simp only [List.nil_append, List.cons_append, List.cons.injEq] at h
      exact absurd (h.1 ▸ List.mem_cons_self c t) (h.1 ▸ hA2)
  | cons c t ih =>
    intro A2 B B2 hA hA2 h
    cases A2 with
    | nil =>
      simp only [List.cons_append, List.nil_append, List.cons.injEq] at h
      exact absurd (h.1 ▸ List.mem_cons_self c t) (fun hc => hA (h.1 ▸ hc))
    | cons c2 t2 =>
      simp only [List.cons_append, List.cons.injEq] at h
      obtain ⟨rfl, h2⟩ := h
      obtain ⟨rfl, rfl⟩ := ih t2 B B2
        (fun hm => hA (List.mem_cons_of_mem _ hm))
        (fun hm => hA2 (List.mem_cons_of_mem _ hm)) h2
      exact ⟨rfl, rfl⟩

/-! ## C7 — chunk identifiers are deterministic and collision-free -/

/-- C7: within a single document, the chunk identifier
`{doc-id-without-extension}_{1-based page}_{2-digit zero-padded index}` is a
pure function of the (page, index) pair — re-running ingestion on identical
input reproduces it — and distinct (page, index) pairs always produce
distinct identifiers. -/
theorem chunkId_unique_iff (d : String) (p i q j : Nat) :
    chunkId d p i = chunkId d q j ↔ (p = q ∧ i = j) := by
  constructor
  · intro h
    have hd := congrArg String.data h
    simp only [chunkId, String.data_append,
      show ∀ l : List Char, (String.mk l).data = l from fun _ => rfl,
      show ("_" : String).data = ['_'] from rfl,
      List.append_assoc, List.singleton_append] at hd
    have hd2 := List.append_cancel_left hd
    injection hd2 with _ hd3
    obtain ⟨hA, hB⟩ := append_sep_inj _ _ _ _
      (natChars_no_us (p + 1)) (natChars_no_us (q + 1)) hd3
    exact ⟨Nat.succ_injective (natChars_inj hA), pad2_inj hB⟩
  · rintro ⟨rfl, rfl⟩
    rfl

/-! ## C10 — the lists passed to add_documents are aligned -/

/-- C10: for every page, the `documents`, `metadatas` and `ids` lists handed
to `add_documents` have equal length, and at every position the stored id
equals the `chunk_id` recorded in that position's metadata — every vector
record carries its own storage id in its metadata. -/
theorem add_documents_lists_aligned (d : String) (pn : Nat)
    (pageChunks : List String) :
    (pageDocuments pageChunks).length = (pageMetadatas d pn pageChunks).length ∧
      (pageMetadatas d pn pageChunks).length = (pageIds d pn pageChunks).length ∧
      ∀ idx : Nat, (pageIds d pn pageChunks)[idx]? =
        ((pageMetadatas d pn pageChunks)[idx]?).map ChunkMeta.chunk_id := by
  refine ⟨by simp [pageDocuments, pageMetadatas],
          by simp [pageMetadatas, pageIds], ?_⟩
  intro idx
  simp only [pageIds, pageMetadatas, List.getElem?_map]
  cases pageChunks.enum[idx]? with
  | none => rfl
  | some e => rfl

/-! ## C6 helper lemmas — rounding is monotone, partition step is a sublist -/

/-- Banker's rounding is monotone. -/
theorem roundHalfEven_mono {q r : ℚ} (h : q ≤ r) :
    roundHalfEven q ≤ roundHalfEven r := by
  have hf : ⌊q⌋ ≤ ⌊r⌋ := Int.floor_le_floor h
  by_cases heq : ⌊q⌋ = ⌊r⌋
  · unfold roundHalfEven
    rw [← heq]
    have hqr : q - (⌊q⌋ : ℚ) ≤ r - (⌊q⌋ : ℚ) := by linarith
    split_ifs <;> first | omega | (exfalso; linarith)
  · have hlt : ⌊q⌋ < ⌊r⌋ := lt_of_le_of_ne hf heq
    have h1 : roundHalfEven q ≤ ⌊q⌋ + 1 := by
      unfold roundHalfEven; split_ifs <;> omega
    have h2 : ⌊r⌋ ≤ roundHalfEven r := by
      unfold roundHalfEven; split_ifs <;> omega
    omega

/-- Rounding to three decimals is monotone. -/
theorem round3_mono {q r : ℚ} (h : q ≤ r) : round3 q ≤ round3 r := by
  have hm : roundHalfEven (q * 1000) ≤ roundHalfEven (r * 1000) :=
    roundHalfEven_mono (by linarith)
  unfold round3
  exact div_le_div_of_nonneg_right (by exact_mod_cast hm)
    (by norm_num : (0:ℚ) ≤ 1000)

/-- A smaller distance yields a no-smaller stored relevance score. -/
theorem relevance_score_antitone {a b : Candidate}
    (h : a.distance ≤ b.distance) :
    (toRetrieved b).relevance_score ≤ (toRetrieved a).relevance_score := by
  unfold toRetrieved
  exact round3_mono (by linarith)

/-- With the key configured, `retrieve_chunks` is the threshold filter over the
query results, mapped to chunk records. -/
theorem retrieve_chunks_true (store : List Candidate) (n : Nat) (τ : ℚ) :
    retrieve_chunks true store n τ =
      ((vs_query store n).filter (fun c => τ ≤ 1 - c.distance)).map toRetrieved :=
  rfl

/-- The guideline filter step never adds elements: it is a sublist. -/
theorem partitionFilterStep_sublist (gf : String) (l : List RetrievedChunk) :
    List.Sublist (partitionFilterStep gf l) l := by
  unfold partitionFilterStep
  split_ifs <;> first | exact List.filter_sublist l | exact List.Sublist.refl l

/-- The threshold-filtered, mapped retrieval output is ordered by descending
stored relevance whenever the store is ranked by ascending distance. -/
theorem retrieve_chunks_sorted (store : List Candidate) (n : Nat) (τ : ℚ)
    (hsorted : store.Pairwise (fun a b => a.distance ≤ b.distance)) :
    (retrieve_chunks true store n τ).Pairwise
      (fun a b => b.relevance_score ≤ a.relevance_score) := by
  rw [retrieve_chunks_true]
  apply List.pairwise_map.mpr
  apply List.Pairwise.imp (fun hab => relevance_score_antitone hab)
  exact (hsorted.sublist (List.take_sublist n store)).sublist
    (List.filter_sublist _)

/-! ## C6 — threshold inclusion, result cap, descending order -/

/-- C6: over a store ranked by ascending distance (with distinct chunk ids),
a queried candidate's record is in the `retrieve_chunks` output exactly when
its relevance `1 − distance` reaches the threshold; the partition-filtered
`retrieve_guideline_chunks` output never exceeds `top_k` chunks; and both
outputs are ordered by descending relevance score. -/
theorem retrieval_threshold_cap_order (store : List Candidate) (n k : Nat)
    (τ : ℚ) (gf : String)
    (hsorted : store.Pairwise (fun a b => a.distance ≤ b.distance))
    (hids : (store.map Candidate.chunk_id).Nodup) :
    (∀ c ∈ vs_query store n,
      (toRetrieved c ∈ retrieve_chunks true store n τ ↔ τ ≤ 1 - c.distance)) ∧
      (retrieve_guideline_chunks true store gf k).length ≤ k ∧
      (retrieve_chunks true store n τ).Pairwise
        (fun a b => b.relevance_score ≤ a.relevance_score) ∧
      (retrieve_guideline_chunks true store gf k).Pairwise
        (fun a b => b.relevance_score ≤ a.relevance_score) := by
  refine ⟨?_, ?_, retrieve_chunks_sorted store n τ hsorted, ?_⟩
  · intro c hc
    constructor
    · intro hmem
      rw [retrieve_chunks_true] at hmem
      obtain ⟨c2, hc2f, hc2e⟩ := List.mem_map.mp hmem
      obtain ⟨hc2q, hc2p⟩ := List.mem_filter.mp hc2f
      have hcid : c2.chunk_id = c.chunk_id := congrArg RetrievedChunk.chunk_id hc2e
      have hceq : c2 = c :=
        List.inj_on_of_nodup_map hids
          ((List.take_sublist n store).subset hc2q)
          ((List.take_sublist n store).subset hc) hcid
      rw [← hceq]
      exact of_decide_eq_true hc2p
    · intro hrel
      rw [retrieve_chunks_true]
      exact List.mem_map_of_mem toRetrieved
        (List.mem_filter.mpr ⟨hc, decide_eq_true hrel⟩)
  · exact List.length_take_le k _
  · unfold retrieve_guideline_chunks
    exact ((retrieve_chunks_sorted store (k * 2) default_threshold
        hsorted).sublist (partitionFilterStep_sublist gf _)).sublist
      (List.take_sublist k _)

section

attribute [local semireducible] Rat.mul Rat.add Rat.sub Rat.inv

/-- C6 witness on the two-chunk ranked corpus with the default threshold. -/
theorem retrieval_threshold_cap_order_witness :
    (rankedStore.Pairwise (fun a b => a.distance ≤ b.distance) ∧
      (rankedStore.map Candidate.chunk_id).Nodup) ∧
      ((∀ c ∈ vs_query rankedStore 6,
        (toRetrieved c ∈ retrieve_chunks true rankedStore 6 ((1:ℚ)/2) ↔
          (1:ℚ)/2 ≤ 1 - c.distance)) ∧
        (retrieve_guideline_chunks true rankedStore "turkey" 3).length ≤ 3 ∧
        (retrieve_chunks true rankedStore 6 ((1:ℚ)/2)).Pairwise
          (fun a b => b.relevance_score ≤ a.relevance_score) ∧
        (retrieve_guideline_chunks true rankedStore "turkey" 3).Pairwise
          (fun a b => b.relevance_score ≤ a.relevance_score)) :=
  ⟨⟨by decide, by decide⟩,
   retrieval_threshold_cap_order rankedStore 6 3 ((1:ℚ)/2) "turkey"
     (by decide) (by decide)⟩

end

/-! ## C2 — partition retrieval is a substring-sliced shared list -/

section

attribute [local semireducible] Rat.mul Rat.add Rat.sub Rat.inv

/-- C2 counterexample: with `top_k = 1` the turkey partition receives no chunk
at all — the 2·top_k shared candidates are all ACR chunks and the substring
slice leaves nothing — although the partition has above-threshold evidence
(the spec-side independent retrieval returns it).  So partition results are not
independent of how many higher-ranked chunks belong to other partitions. -/
theorem independent_retrieval_cex :
    retrieve_guideline_chunks true imbalancedStore "turkey" 1 = [] ∧
      spec_partition_retrieve imbalancedStore turkeyTest 1 =
        [toRetrieved ⟨"turkey.pdf", 1, "turkey_1_00", "t0", 2/10⟩] ∧
      spec_partition_retrieve imbalancedStore turkeyTest 1 ≠ [] := by
  refine ⟨by decide, by decide, by decide⟩

end

/-- Appending preserves the filter of a front segment. -/
theorem front_filter {α : Type} (p : α → Bool) {A B : List α}
    (h : ∃ t2, A ++ t2 = B) : ∃ t2, A.filter p ++ t2 = B.filter p := by
  obtain ⟨t2, rfl⟩ := h
  exact ⟨t2.filter p, (List.filter_append _ _).symm⟩

/-- Appending preserves the map of a front segment. -/
theorem front_map {α β : Type} (f : α → β) {A B : List α}
    (h : ∃ t2, A ++ t2 = B) : ∃ t2, A.map f ++ t2 = B.map f := by
  obtain ⟨t2, rfl⟩ := h
  exact ⟨t2.map f, (List.map_append _ _ _).symm⟩

/-- Appending preserves the take of a front segment. -/
theorem front_take {α : Type} (k : Nat) {A B : List α}
    (h : ∃ t2, A ++ t2 = B) : ∃ t2, A.take k ++ t2 = B.take k := by
  obtain ⟨t2, rfl⟩ := h
  exact ⟨t2.take (k - A.length), List.take_append_eq_append_take.symm⟩

/-- When the guideline filter is recognised, the filter step is the filter by
its document test. -/
theorem partitionFilterStep_eq (gf : String) (t : String → Bool)
    (h : docTestOf gf = some t) (l : List RetrievedChunk) :
    partitionFilterStep gf l = l.filter (fun c => t c.doc_id) := by
  unfold docTestOf at h
  unfold partitionFilterStep
  split_ifs at h ⊢ <;> (injection h with h4; rw [h4])

/-- C2 (amended): each partition is retrieved by its own
`retrieve_chunks` call with its own `top_k` (asking for `2·top_k`
candidates), but the partition's chunks are then obtained by slicing that
call's shared ranked candidate list by substring match on the document
identifier.  Consequently the output is always a front segment of the
partition's best available above-threshold evidence — the chunks it does
return are that partition's top-ranked ones — but it may return fewer than
the partition has (even none) when higher-ranked candidates belong to other
partitions. -/
theorem retrieve_guideline_chunks_front_of_spec (store : List Candidate)
    (gf : String) (t : String → Bool) (k : Nat)
    (h : docTestOf gf = some t) :
    ∃ tail, retrieve_guideline_chunks true store gf k ++ tail =
      spec_partition_retrieve store t k := by
  unfold retrieve_guideline_chunks spec_partition_retrieve
  rw [partitionFilterStep_eq gf t h]
  rw [retrieve_chunks_true]
  rw [List.filter_map]
  rw [List.filter_comm]
  have hcomp : ((fun r : RetrievedChunk => t r.doc_id) ∘ toRetrieved) =
      (fun c : Candidate => t c.doc_id) := rfl
  rw [hcomp]
  exact front_take k (front_map toRetrieved (front_filter _ (front_filter _
    ⟨store.drop (k * 2), List.take_append_drop _ _⟩)))

/-- C2 amended witness on the imbalanced corpus. -/
theorem retrieve_guideline_chunks_front_of_spec_witness :
    docTestOf "turkey" = some turkeyTest ∧
      ∃ tail, retrieve_guideline_chunks true imbalancedStore "turkey" 1 ++
          tail = spec_partition_retrieve imbalancedStore turkeyTest 1 :=
  ⟨by simp [docTestOf],
   retrieve_guideline_chunks_front_of_spec imbalancedStore "turkey"
     turkeyTest 1 (by simp [docTestOf])⟩

/-! ## C3 — vector-store probes on a raising backend -/

/-- C3 counterexample: on a backend whose `count()` raises, `VectorStore.count`
propagates the backend exception instead of returning zero, so the claim that
`count()` never raises is false. -/
theorem count_propagates_cex :
    VectorStore.count ⟨Except.error "backend failure"⟩ =
        Except.error "backend failure" ∧
      VectorStore.count ⟨Except.error "backend failure"⟩ ≠ Except.ok 0 := by
  refine ⟨rfl, ?_⟩
  intro h
  exact Except.noConfusion h

/-- C3 (amended): `is_ready` never raises — it is true exactly when the
backend reports a positive count and false on any backend exception — while
`count` is unprotected and returns the backend outcome unchanged, propagating
a raising backend. -/
theorem is_ready_total_count_propagates (b : BackendCollection) :
    (VectorStore.is_ready b = true ↔
        ∃ n, b.countResult = Except.ok n ∧ 0 < n) ∧
      VectorStore.count b = b.countResult := by
  refine ⟨?_, rfl⟩
  unfold VectorStore.is_ready
  cases h : b.countResult with
  | ok n => simp
  | error e => simp

end Thyroid
